import Mathlib

/-!
Verification of `src/tracking/tongue/data_wrangling/licking_data_parser.py`
(`load_licking_data`), the dataset-assembly core of the repository.

The embedding is shallow: the filesystem, `cv2` image I/O and the external
heatmap routine `image_manip.create_gaussian_mask` (imported from a module
that is not part of the core source) are oracles passed in as data
(`FS`, `ExtOps`); everything the Python function itself computes is
translated into executable Lean definitions.  Each definition's doc comment
cites the source lines it embeds.  Python exceptions that `load_licking_data`
does not catch are modelled with `Except PyErr`.
-/

namespace LickingData

/-! ## Python string primitives -/

/-- whitespace characters recognised by Python `str.strip()` / `str.split()`
(restricted to the ASCII whitespace that can occur in the data model). -/
def isPySpace (c : Char) : Bool :=
  c == ' ' || c == '\t' || c == '\n' || c == '\r'

/-- models Python `str.strip()` on the character list of a string. -/
def pyStripList (l : List Char) : List Char :=
  ((l.dropWhile isPySpace).reverse.dropWhile isPySpace).reverse

/-- models Python `str.strip()`. -/
def pyStrip (s : String) : String := String.mk (pyStripList s.data)

/-- value of a list of decimal digit characters; `none` if empty or a
non-digit occurs. -/
def digitsVal : List Char → Option Nat
  | [] => none
  | [c] => if c.isDigit then some (c.toNat - 48) else none
  | c :: cs =>
    if c.isDigit then
      (digitsVal cs).map (fun n => (c.toNat - 48) * 10 ^ cs.length + n)
    else none

/-- models Python `int(s)`: surrounding whitespace is ignored, an optional
sign precedes a nonempty digit string.  (Digit-group underscores, which
`int` also accepts, are not modelled; no claim depends on them.) -/
def pyInt (s : String) : Option Int :=
  match pyStripList s.data with
  | '-' :: rest => (digitsVal rest).map (fun n => -(n : Int))
  | '+' :: rest => (digitsVal rest).map (fun n => (n : Int))
  | l => (digitsVal l).map (fun n => (n : Int))

/-- integer part of an unsigned decimal literal `digits [. digits]` /
`. digits`; `none` when the text is not such a literal. -/
def floatMag (l : List Char) : Option Nat :=
  let ip := l.takeWhile Char.isDigit
  match l.dropWhile Char.isDigit with
  | [] => digitsVal ip
  | '.' :: frac =>
    if frac.all Char.isDigit ∧ (ip ≠ [] ∨ frac ≠ []) then
      some ((digitsVal ip).getD 0)
    else none
  | _ => none

/-- models Python `int(float(s))` (truncation toward zero) for plain decimal
literals with an optional sign.  Exponent forms and the `inf`/`nan` literals
accepted by `float` are not modelled: the `nan` spellings are occlusion
markers and never reach this conversion in the source, and no claim rests on
exponent forms. -/
def pyFloatTrunc (s : String) : Option Int :=
  match pyStripList s.data with
  | '-' :: rest => (floatMag rest).map (fun n => -(n : Int))
  | '+' :: rest => (floatMag rest).map (fun n => (n : Int))
  | l => (floatMag l).map (fun n => (n : Int))

/-- models Python `str.endswith`. -/
def pyEndsWith (s suffix : String) : Bool := suffix.data.isSuffixOf s.data

/-- models Python `str.startswith`. -/
def pyStartsWith (s t : String) : Bool := t.data.isPrefixOf s.data

/-- models Python `str.lower()` for ASCII text. -/
def pyLower (s : String) : String := String.mk (s.data.map Char.toLower)

/-- models Python `str.split(sep)` for a one-character separator: every
occurrence of the separator ends a field, so consecutive separators produce
empty fields and the empty string yields one empty field. -/
def splitCh (d : Char) : List Char → List (List Char)
  | [] => [[]]
  | c :: cs =>
    if c = d then [] :: splitCh d cs
    else
      match splitCh d cs with
      | [] => [[c]]
      | f :: r => (c :: f) :: r

/-- models Python `sep.join(fields)` at the character-list level. -/
def interCh (d : Char) : List (List Char) → List Char
  | [] => []
  | [f] => f
  | f :: fs => f ++ d :: interCh d fs

/-- accumulator worker for no-argument `str.split()`. -/
def pySplitWSAux (cur : List Char) : List Char → List (List Char)
  | [] => if cur.isEmpty then [] else [cur.reverse]
  | c :: cs =>
    if isPySpace c then
      if cur.isEmpty then pySplitWSAux [] cs
      else cur.reverse :: pySplitWSAux [] cs
    else pySplitWSAux (c :: cur) cs

/-- models Python no-argument `str.split()`: fields are maximal runs of
non-whitespace, empty fields never occur. -/
def pySplitWS (s : String) : List String :=
  (pySplitWSAux [] s.data).map String.mk

/-- stem component of `os.path.splitext` on a basename: split at the last
dot unless every character before it is itself a dot. -/
def pySplitextStemList (l : List Char) : List Char :=
  let pre := (l.reverse.dropWhile (fun c => !(c == '.'))).reverse
  match pre with
  | [] => l
  | _ =>
    let stem := pre.dropLast
    if stem.any (fun c => !(c == '.')) then stem else l

/-- models `os.path.basename`: the part of the path after the last slash. -/
def pyBasenameList (l : List Char) : List Char :=
  (l.reverse.takeWhile (fun c => !(c == '/'))).reverse

/-- models `os.path.join(a, b)` for a relative `b`, as used throughout the
source on POSIX paths. -/
def pathJoin (a b : String) : String := a ++ "/" ++ b

/-! ## Arrays and external collaborators -/

/-- model of a `numpy` array / `cv2` image: a shape, a dtype tag and the
flattened pixel data (pixel values as natural numbers; boolean arrays store
0/1). -/
structure Mat where
  shape : List Nat
  dtype : String
  data : List Nat
deriving DecidableEq, Repr

/-- models `np.zeros(shape, dtype)`. -/
def npZeros (shape : List Nat) (dtype : String) : Mat :=
  ⟨shape, dtype, List.replicate shape.prod 0⟩

/-- models `mask > 0` (source line 285): elementwise threshold producing a
boolean array. -/
def binarize (m : Mat) : Mat :=
  ⟨m.shape, "bool", m.data.map (fun v => if 0 < v then 1 else 0)⟩

/-- models `(jaw_mask * 255).astype(np.uint8)` (source line 300); the
Gaussian values themselves are opaque oracle data. -/
def scaleToU8 (m : Mat) : Mat :=
  ⟨m.shape, "uint8", m.data.map (fun v => v * 255 % 256)⟩

/-- interpolation choice passed to `cv2.resize`. -/
inductive Interp where
  | area
  | linear
deriving DecidableEq, Repr

/-- external collaborators of `load_licking_data`: `cv2` image I/O and the
heatmap routine `image_manip.create_gaussian_mask`, which is imported from a
module outside the core source.  `none` from `imread` models the `None`
return on decode failure; `none` from `resize` or `create_gaussian_mask`
models the call raising an exception. -/
structure ExtOps where
  imread : String → Option Mat
  imreadGray : String → Option Mat
  resize : Mat → Nat × Nat → Interp → Option Mat
  create_gaussian_mask : Nat × Nat → Nat × Nat → Int × Int → Nat × Nat → Option Mat

/-- read-only filesystem oracle: the root listing (already filtered to
directories, in `os.listdir` order, source lines 70-71), existence tests,
directory listings and text-file lines. -/
structure FS where
  rootDirs : List String
  pathExists : String → Bool
  listDir : String → List String
  readLines : String → List String

/-- a Python exception escaping `load_licking_data`: the `StopIteration`
raised by an unguarded `next(file)`, or any other uncaught exception
raised by a collaborator call outside a `try` block. -/
inductive PyErr where
  | stopIteration
  | unhandled
deriving DecidableEq, Repr

/-- keyword parameters of `load_licking_data` (source lines 14-27) other
than `data_folder` and `return_numpy`; the model covers the accumulation and
list-return path (lines 70-315), which is shared by both `return_numpy`
settings.  `csv_delimiter` is a single character, as `csv.reader`
requires. -/
structure Config where
  target_resolution : Nat × Nat
  csv_delimiter : Char
  csv_has_header : Bool
  original_resolution : Nat × Nat
  gaussian_sigma : Nat × Nat
  image_extensions : List String
  images_dir_name : String
  labels_dir_name : String
  tongue_folder_name : String
  jaw_folder_name : String
  occlusion_markers : List String
  load_all_images : Bool
deriving Repr

/-- default keyword arguments of `load_licking_data` (source lines 15-27). -/
def defaultCfg : Config :=
  ⟨(256, 256), ' ', true, (480, 640), (25, 25), [".png", ".jpg", ".jpeg"],
   "images", "labels", "tongue", "jaw", ["nan", "NaN", "NAN", "None", ""], true⟩

/-! ## Coordinate Table Reader (source lines 150-225) -/

/-- models `csv.reader` applied to one line of quote-free text: a blank line
yields an empty row, any other line splits on every occurrence of the
one-character delimiter.  (The quoting layer of `csv.reader` is not
exercised by the data the claims quantify over.) -/
def csvRow (delim : Char) (line : String) : List String :=
  match line.data with
  | [] => []
  | l => (splitCh delim l).map String.mk

/-- models the delimiter probe of source lines 168-177: the first data line
is stripped and the first of comma, space, tab found in it wins; otherwise
the configured default delimiter is used. -/
def detectDelimiter (firstLine : String) (csv_delimiter : Char) : Char :=
  let t := pyStrip firstLine
  if ',' ∈ t.data then ','
  else if ' ' ∈ t.data then ' '
  else if '\t' ∈ t.data then '\t'
  else csv_delimiter

/-- models the defensive re-split of source lines 191-198: a single-field
row whose field contains a fallback delimiter is split again (with
no-argument `str.split()` in the space case). -/
def resplitRow (row : List String) : List String :=
  match row with
  | [r0] =>
    if ',' ∈ r0.data then (splitCh ',' r0.data).map String.mk
    else if ' ' ∈ r0.data then pySplitWS r0
    else if '\t' ∈ r0.data then (splitCh '\t' r0.data).map String.mk
    else row
  | _ => row

/-- models one iteration of the row loop (source lines 185-225): the
assignment the row makes to `jaw_coords` — `(frame, none)` for an occlusion
sentinel, `(frame, some (x, y))` for coordinates — or `none` when the row is
skipped or a conversion raises `ValueError`.  `none` in the value position
models the Python `None` stored for occluded keypoints. -/
def parseJawRow (markers : List String) (row0 : List String) :
    Option (Int × Option (Int × Int)) :=
  match row0 with
  | [] => none
  | _ =>
    match resplitRow row0 with
    | r0 :: r1 :: r2 :: _ =>
      if pyStrip r0 = "" ∨ pyStrip r1 = "" ∨ pyStrip r2 = "" then none
      else
        match pyInt (pyStrip r0) with
        | none => none
        | some frame =>
          let x_str := pyStrip r1
          let y_str := pyStrip r2
          if x_str ∈ markers ∨ y_str ∈ markers then some (frame, none)
          else
            match pyFloatTrunc x_str, pyFloatTrunc y_str with
            | some x, some y => some (frame, some (x, y))
            | _, _ => none
    | _ => none

/-- models Python dict assignment `d[k] = v`: an existing key keeps its
position and its value is replaced, a new key is appended. -/
def dictUpdate {α : Type} (l : List (Int × α)) (k : Int) (v : α) :
    List (Int × α) :=
  match l with
  | [] => [(k, v)]
  | (k1, v1) :: rest =>
    if k1 = k then (k, v) :: rest else (k1, v1) :: dictUpdate rest k v

/-- effect of one already-split row on the `jaw_coords` dict: a skipped row
leaves it unchanged, a usable row assigns (source lines 185-225). -/
def assignStep (markers : List String)
    (d : List (Int × Option (Int × Int))) (row : List String) :
    List (Int × Option (Int × Int)) :=
  match parseJawRow markers row with
  | none => d
  | some fv => dictUpdate d fv.1 fv.2

/-- effect of one raw source line on the `jaw_coords` dict: split it with
the detected delimiter, then apply the row's assignment. -/
def jawRowStep (markers : List String) (delim : Char)
    (d : List (Int × Option (Int × Int))) (line : String) :
    List (Int × Option (Int × Int)) :=
  assignStep markers d (csvRow delim line)

/-- models the row loop of source lines 184-225 building `jaw_coords`
(insertion-ordered dict as an association list with unique keys). -/
def readJawRows (markers : List String) (delim : Char) (lines : List String) :
    List (Int × Option (Int × Int)) :=
  lines.foldl (jawRowStep markers delim) []

/-- models source lines 158-225: opening the jaw CSV, skipping the header,
probing the delimiter on the first data line and folding the row loop.
Each of the three unguarded `next(file)` calls (lines 160, 166, 182) raises
`StopIteration` on a file with no lines when `csv_has_header` is set; no
handler catches it.  (The `content = file.read()` of line 163 is dead.) -/
def readJawCsv (csv_has_header : Bool) (csv_delimiter : Char)
    (markers : List String) (lines : List String) :
    Except PyErr (List (Int × Option (Int × Int))) :=
  if csv_has_header ∧ lines = [] then .error .stopIteration
  else
    let dataLines := if csv_has_header then lines.tail else lines
    let delim := detectDelimiter (dataLines.headD "") csv_delimiter
    .ok (readJawRows markers delim dataLines)

/-! ## Frame Indexer (source lines 113-147) -/

/-- models source lines 113-114: keep the listed files whose lowercased name
ends in an accepted extension. -/
def filterImages (exts : List String) (listing : List String) : List String :=
  listing.filter (fun img => exts.any (fun ext => pyEndsWith (pyLower img) ext))

/-- models source line 126: the extension-stripping decision, taken once
from the first listed image name. -/
def extDecision (img_names : List String) : Bool :=
  pyEndsWith (img_names.headD "") ".png"

/-- models source lines 126-129 for one name under the per-experiment
decision: drop a literal 4-character `.png` tail, or take the
`os.path.splitext` stem. -/
def stripExt (usePng : Bool) (img : String) : String :=
  if usePng then String.mk (img.data.take (img.data.length - 4))
  else String.mk (pySplitextStemList img.data)

/-- models source line 132: the scene-token decision, taken once from the
first stem. -/
def sceneDecision (stems : List String) : Bool :=
  pyStartsWith (stems.headD "") "scene"

/-- models source lines 132-135 for one stem under the per-experiment
decision: drop a fixed 5-character head, or keep the stem. -/
def stripScene (useScene : Bool) (stem : String) : String :=
  if useScene then String.mk (stem.data.drop 5) else stem

/-- the two frame dictionaries of source lines 138-139. -/
structure FrameMaps where
  toPath : List (Int × String)
  toName : List (Int × String)
deriving DecidableEq, Repr

/-- effect of one `(path, name, num)` entry on the two frame dicts (source
lines 140-147): a number that fails `int` leaves them unchanged, otherwise
both dicts are assigned. -/
def frameMapsStep (m : FrameMaps) (e : String × String × String) : FrameMaps :=
  match pyInt e.2.2 with
  | none => m
  | some f => ⟨dictUpdate m.toPath f e.1, dictUpdate m.toName f e.2.1⟩

/-- models source lines 140-147: fold over `zip(image_paths,
img_names_no_ext, img_nums)`; entries whose number fails `int` are excluded
with a warning, duplicates overwrite (last writer wins). -/
def buildFrameMaps (entries : List (String × String × String)) : FrameMaps :=
  entries.foldl frameMapsStep ⟨[], []⟩

/-- models the whole Frame Indexer section (source lines 113-147) for one
experiment: from the raw images-folder listing to the two frame maps. -/
def frameIndexer (img_folder : String) (exts listing : List String) :
    FrameMaps :=
  let image_paths := (filterImages exts listing).map (pathJoin img_folder)
  let img_names := image_paths.map (fun p => String.mk (pyBasenameList p.data))
  let usePng := extDecision img_names
  let img_names_no_ext := img_names.map (stripExt usePng)
  let useScene := sceneDecision img_names_no_ext
  let img_nums := img_names_no_ext.map (stripScene useScene)
  buildFrameMaps (image_paths.zip (img_names_no_ext.zip img_nums))

/-- models source lines 243-247: under `load_all_images` every indexed frame
is selected, otherwise only frames present in `jaw_coords` (occluded rows
included, since `frame in jaw_coords` holds for them). -/
def selectFrames (load_all_images : Bool) (all_frames : List Int)
    (jaw_coords : List (Int × Option (Int × Int))) : List Int :=
  if load_all_images then all_frames
  else all_frames.filter (fun f => (jaw_coords.lookup f).isSome)

/-! ## Experiment Aligner (source lines 84-307) -/

/-- the four per-experiment accumulation lists of source lines 256-258:
`experiment_images`, `experiment_image_filenames`, `experiment_labels[0]`
(tongue) and `experiment_labels[1]` (jaw). -/
structure ExpOut where
  images : List Mat
  filenames : List String
  tongueMasks : List Mat
  jawMasks : List Mat
deriving DecidableEq, Repr

/-- models the tongue branch of source lines 277-292: look for
`labels/tongue/<stem>.png`; decode, resize and binarize it when present and
decodable, otherwise substitute `np.zeros(target_resolution, dtype=bool)`.
A `resize` failure here (line 284) is outside any `try` block and escapes as
an uncaught exception. -/
def tongueMaskFor (ops : ExtOps) (fs : FS) (cfg : Config)
    (tongue_path img_name : String) : Except PyErr Mat :=
  let tongue_label_path := pathJoin tongue_path (img_name ++ ".png")
  if fs.pathExists tongue_label_path then
    match ops.imreadGray tongue_label_path with
    | some mask =>
      match ops.resize mask cfg.target_resolution .linear with
      | some resized => .ok (binarize resized)
      | none => .error .unhandled
    | none => .ok (npZeros [cfg.target_resolution.1, cfg.target_resolution.2] "bool")
  else .ok (npZeros [cfg.target_resolution.1, cfg.target_resolution.2] "bool")

/-- models the jaw branch of source lines 295-305: a present, non-`None`
coordinate is rendered by `create_gaussian_mask` and rescaled to `uint8`;
an absent or occluded frame gets `np.zeros(target_resolution,
dtype=np.uint8)`.  A `create_gaussian_mask` failure (line 297) is outside
any `try` block and escapes. -/
def jawMaskFor (ops : ExtOps) (cfg : Config) (origRes : Nat × Nat)
    (jaw_coords : List (Int × Option (Int × Int))) (frame_num : Int) :
    Except PyErr Mat :=
  match jaw_coords.lookup frame_num with
  | some (some xy) =>
    match ops.create_gaussian_mask origRes cfg.target_resolution xy
        cfg.gaussian_sigma with
    | some g => .ok (scaleToU8 g)
    | none => .error .unhandled
  | _ => .ok (npZeros [cfg.target_resolution.1, cfg.target_resolution.2] "uint8")

/-- models one iteration of the per-frame loop (source lines 260-307): an
unreadable image or a failing image resize skips the frame (the `continue`
of lines 267 and 275) leaving the accumulators untouched; otherwise the
image and filename are appended, then exactly one tongue mask and exactly
one jaw mask. -/
def processFrame (ops : ExtOps) (fs : FS) (cfg : Config)
    (tongue_path : String) (maps : FrameMaps)
    (jaw_coords : List (Int × Option (Int × Int))) (origRes : Nat × Nat)
    (acc : ExpOut) (frame_num : Int) : Except PyErr ExpOut :=
  let image_path := (maps.toPath.lookup frame_num).getD ""
  match ops.imread image_path with
  | none => .ok acc
  | some image =>
    match ops.resize image cfg.target_resolution .area with
    | none => .ok acc
    | some image_resized =>
      let img_name := (maps.toName.lookup frame_num).getD ""
      match tongueMaskFor ops fs cfg tongue_path img_name with
      | .error e => .error e
      | .ok tmask =>
        match jawMaskFor ops cfg origRes jaw_coords frame_num with
        | .error e => .error e
        | .ok jmask =>
          .ok ⟨acc.images ++ [image_resized], acc.filenames ++ [image_path],
               acc.tongueMasks ++ [tmask], acc.jawMasks ++ [jmask]⟩

/-- loop worker for the per-frame loop: successive frames update the
accumulator, and an uncaught exception aborts the loop. -/
def processFramesAux (ops : ExtOps) (fs : FS) (cfg : Config)
    (tongue_path : String) (maps : FrameMaps)
    (jaw_coords : List (Int × Option (Int × Int))) (origRes : Nat × Nat)
    (acc : ExpOut) : List Int → Except PyErr ExpOut
  | [] => .ok acc
  | f :: fr =>
    match processFrame ops fs cfg tongue_path maps jaw_coords origRes acc f with
    | .error e => .error e
    | .ok acc1 =>
      processFramesAux ops fs cfg tongue_path maps jaw_coords origRes acc1 fr

/-- models the whole per-frame loop of source lines 256-307, starting from
the empty accumulators of lines 256-258. -/
def processFrames (ops : ExtOps) (fs : FS) (cfg : Config)
    (tongue_path : String) (maps : FrameMaps)
    (jaw_coords : List (Int × Option (Int × Int))) (origRes : Nat × Nat)
    (frames : List Int) : Except PyErr ExpOut :=
  processFramesAux ops fs cfg tongue_path maps jaw_coords origRes
    ⟨[], [], [], []⟩ frames

/-- models one iteration of the experiment loop (source lines 84-307).
`.ok none` is a logged skip (`continue`), `.ok (some out)` contributes the
experiment's four lists, `.error` is an exception escaping
`load_licking_data`.  The `label_folders` listing of lines 95-97 only feeds
a diagnostic print and is not modelled. -/
def processExperiment (cfg : Config) (ops : ExtOps) (fs : FS)
    (data_folder experiment_folder : String) : Except PyErr (Option ExpOut) :=
  let experiment_path := pathJoin data_folder experiment_folder
  let labels_path := pathJoin experiment_path cfg.labels_dir_name
  if ¬ fs.pathExists labels_path then .ok none
  else
    let tongue_path := pathJoin labels_path cfg.tongue_folder_name
    let jaw_path := pathJoin labels_path cfg.jaw_folder_name
    if ¬ fs.pathExists tongue_path ∨ ¬ fs.pathExists jaw_path then .ok none
    else
      let img_folder := pathJoin experiment_path cfg.images_dir_name
      if ¬ fs.pathExists img_folder then .ok none
      else
        let image_paths :=
          (filterImages cfg.image_extensions (fs.listDir img_folder)).map
            (pathJoin img_folder)
        if image_paths = [] then .ok none
        else
          let maps := frameIndexer img_folder cfg.image_extensions
            (fs.listDir img_folder)
          let jaw_csv_files :=
            (fs.listDir jaw_path).filter (fun f => pyEndsWith f ".csv")
          match jaw_csv_files with
          | [] => .ok none
          | jaw_csv_file :: _ =>
            match readJawCsv cfg.csv_has_header cfg.csv_delimiter
                cfg.occlusion_markers
                (fs.readLines (pathJoin jaw_path jaw_csv_file)) with
            | .error e => .error e
            | .ok jaw_coords =>
              if maps.toPath = [] then .ok none
              else
                let first_frame := (maps.toPath.headD (0, "")).1
                match ops.imread ((maps.toPath.lookup first_frame).getD "") with
                | none => .ok none
                | some first_img =>
                  let origRes :=
                    (first_img.shape.getD 0 0, first_img.shape.getD 1 0)
                  let all_frames :=
                    List.insertionSort (· ≤ ·) (maps.toPath.map (·.1))
                  let valid_frames :=
                    selectFrames cfg.load_all_images all_frames jaw_coords
                  if valid_frames = [] then .ok none
                  else
                    (processFrames ops fs cfg tongue_path maps jaw_coords
                      origRes valid_frames).map some

/-! ## Dataset Assembler (source lines 70-315) -/

/-- the four global accumulation lists of source lines 78-80:
`training_images`, `training_image_filenames`, `training_labels[0]` and
`training_labels[1]`. -/
structure LoadOut where
  images : List Mat
  filenames : List String
  tongueMasks : List Mat
  jawMasks : List Mat
deriving DecidableEq, Repr

/-- models the concatenation of source lines 309-313. -/
def appendExp (acc : LoadOut) (r : Option ExpOut) : LoadOut :=
  match r with
  | none => acc
  | some out =>
    ⟨acc.images ++ out.images, acc.filenames ++ out.filenames,
     acc.tongueMasks ++ out.tongueMasks, acc.jawMasks ++ out.jawMasks⟩

/-- loop worker for the experiment loop: each experiment's contribution is
appended, and an uncaught exception aborts the run. -/
def loadAux (cfg : Config) (ops : ExtOps) (fs : FS) (data_folder : String)
    (acc : LoadOut) : List String → Except PyErr LoadOut
  | [] => .ok acc
  | exp :: rest =>
    match processExperiment cfg ops fs data_folder exp with
    | .error e => .error e
    | .ok r => loadAux cfg ops fs data_folder (appendExp acc r) rest

/-- models `load_licking_data` up to the `return_numpy` conversion (source
lines 70-315): fold the experiment loop over the root listing in `os.listdir`
order, concatenating the lists of every non-skipped experiment. -/
def loadModel (cfg : Config) (ops : ExtOps) (fs : FS) (data_folder : String) :
    Except PyErr LoadOut :=
  loadAux cfg ops fs data_folder ⟨[], [], [], []⟩ fs.rootDirs

/-! ## Derived and specification-side definitions used by the claims -/

/-- per-file stripping composed with the integer parse, for fixed
per-experiment decisions: the rule the indexer actually applies to every
file once `usePng` and `useScene` have been decided from the first file. -/
def uniformFrameNum (usePng useScene : Bool) (img : String) : Option Int :=
  pyInt (stripScene useScene (stripExt usePng img))

/-- definition following claim C7's words (not the source): strip that
file's own extension; if that file's remaining stem begins with `scene`,
strip the fixed 5-character head; integer-parse the remainder. -/
def perFileFrameNumSpec (img : String) : Option Int :=
  let stem := String.mk (pySplitextStemList img.data)
  let num := if pyStartsWith stem "scene" then String.mk (stem.data.drop 5)
    else stem
  pyInt num

/-- lexicographic (code-point) string order, the order Python `sorted`
applies to folder names. -/
def strLexLe : List Char → List Char → Bool
  | [], _ => true
  | _ :: _, [] => false
  | a :: as, b :: bs =>
    if a = b then strLexLe as bs else decide (a.toNat < b.toNat)

/-- name order as a relation, for sorting folder names. -/
def pyNameLe (a b : String) : Prop := strLexLe a.data b.data = true

instance : DecidableRel pyNameLe := fun a b => by
  unfold pyNameLe; infer_instance

/-- definition following claim C8's words (not the source): run the
assembler with the root's immediate subdirectories enumerated in name-sorted
order instead of raw `os.listdir` order. -/
def loadModelNameSorted (cfg : Config) (ops : ExtOps) (fs : FS)
    (data_folder : String) : Except PyErr LoadOut :=
  loadModel cfg ops
    ⟨List.insertionSort pyNameLe fs.rootDirs, fs.pathExists, fs.listDir,
     fs.readLines⟩
    data_folder

/-- a field is a clean token: it contains no delimiter candidate, no quote
character and no whitespace.  Frame numbers, coordinate literals and the
non-empty occlusion sentinels are all clean. -/
def cleanFieldB (s : String) : Bool :=
  s.data.all (fun c =>
    !(c == ',') && !(c == ' ') && !(c == '\t') && !(c == '"') &&
    !(c == '\n') && !(c == '\r'))

/-- one logical `frame, x, y` row rendered as a text line with the given
delimiter. -/
def serializeRow (d : Char) (r : String × String × String) : String :=
  String.mk (interCh d [r.1.data, r.2.1.data, r.2.2.data])

/-- a logical table rendered as delimiter-separated lines, one per row. -/
def serializeRows (d : Char) (rows : List (String × String × String)) :
    List String :=
  rows.map (serializeRow d)

/-! ## Fixture definitions used by concrete evaluations and witnesses

`wOps` and `c2Ops` instantiate the `cv2` contract: decoding yields a small
fixed array, `resize` to `dsize = (w, h)` yields an array of shape
`(h, w[, c])` as `cv2.resize` documents, and the Gaussian oracle yields a
2-D array at target resolution. -/

def wCfg : Config :=
  ⟨(2, 2), ' ', true, (480, 640), (25, 25), [".png"], "images", "labels",
   "tongue", "jaw", ["nan", "NaN", "NAN", "None", ""], true⟩

def wOps : ExtOps :=
  ⟨fun _ => some ⟨[4, 6, 3], "uint8", [1, 2, 3]⟩,
   fun _ => none,
   fun m d _ => some ⟨d.2 :: d.1 :: m.shape.drop 2, m.dtype, [0]⟩,
   fun _ t _ _ => some ⟨[t.2, t.1], "float64", [1]⟩⟩

def wFs : FS := ⟨[], fun _ => false, fun _ => [], fun _ => []⟩

/-- filesystem with one structurally complete experiment whose jaw CSV file
exists but is zero-byte (no lines). -/
def c3Fs : FS :=
  ⟨["a"],
   fun p => ["R/a/labels", "R/a/labels/tongue", "R/a/labels/jaw",
     "R/a/images"].contains p,
   fun p =>
     if p = "R/a/images" then ["0.png"]
     else if p = "R/a/labels/jaw" then ["k.csv"] else [],
   fun _ => []⟩

/-- configuration with the non-square target resolution `(2, 3)`. -/
def c2Cfg : Config :=
  ⟨(2, 3), ' ', true, (480, 640), (25, 25), [".png"], "images", "labels",
   "tongue", "jaw", ["nan", "NaN", "NAN", "None", ""], true⟩

/-- collaborator instance realising the documented `cv2` contract:
`resize(m, (w, h))` returns an array of shape `(h, w[, channels])`. -/
def c2Ops : ExtOps :=
  ⟨fun _ => some ⟨[480, 640, 3], "uint8", [1]⟩,
   fun _ => some ⟨[480, 640], "uint8", [2]⟩,
   fun m d _ => some ⟨d.2 :: d.1 :: m.shape.drop 2, m.dtype, [3]⟩,
   fun _ t _ _ => some ⟨[t.2, t.1], "float64", [1]⟩⟩

/-- filesystem with one experiment of two frames: frame 0 has a tongue mask
file, frame 1 does not; the CSV holds no keypoints. -/
def c2Fs : FS :=
  ⟨["a"],
   fun p => ["R/a/labels", "R/a/labels/tongue", "R/a/labels/jaw",
     "R/a/images", "R/a/labels/tongue/0.png"].contains p,
   fun p =>
     if p = "R/a/images" then ["0.png", "1.png"]
     else if p = "R/a/labels/jaw" then ["k.csv"] else [],
   fun p => if p = "R/a/labels/jaw/k.csv" then ["frame,x,y"] else []⟩

/-- the single-dict projection of `frameMapsStep` onto `frame_to_path`. -/
def framePathStep (d : List (Int × String)) (e : String × String × String) :
    List (Int × String) :=
  match pyInt e.2.2 with
  | none => d
  | some f => dictUpdate d f e.1

/-- filesystem whose root listing is `["b", "a"]` (valid `os.listdir`
output), with two minimal complete experiments. -/
def c8Fs : FS :=
  ⟨["b", "a"],
   fun p => ["R/a/labels", "R/a/labels/tongue", "R/a/labels/jaw",
     "R/a/images", "R/b/labels", "R/b/labels/tongue", "R/b/labels/jaw",
     "R/b/images"].contains p,
   fun p =>
     if p = "R/a/images" then ["0.png"]
     else if p = "R/b/images" then ["0.png"]
     else if p = "R/a/labels/jaw" then ["k.csv"]
     else if p = "R/b/labels/jaw" then ["k.csv"] else [],
   fun p =>
     if p = "R/a/labels/jaw/k.csv" ∨ p = "R/b/labels/jaw/k.csv" then
       ["frame,x,y", "0,1,2"]
     else []⟩

/-- concrete output of the `c8Fs` run, for the amended-claim witness. -/
def c8Out : LoadOut :=
  ⟨[⟨[2, 2, 3], "uint8", [3]⟩, ⟨[2, 2, 3], "uint8", [3]⟩],
   ["R/b/images/0.png", "R/a/images/0.png"],
   [npZeros [2, 2] "bool", npZeros [2, 2] "bool"],
   [⟨[2, 2], "uint8", [255]⟩, ⟨[2, 2], "uint8", [255]⟩]⟩

/-- path of an experiment's images folder, as `load_licking_data` joins it
(source lines 85 and 108). -/
def imagesFolderOf (cfg : Config) (data_folder experiment_folder : String) :
    String :=
  pathJoin (pathJoin data_folder experiment_folder) cfg.images_dir_name

/-- the per-file frame-number rule actually applied by the indexer, with
both decisions taken from the first file of the filtered listing. -/
def uniformNumOfListing (exts listing : List String) (nm : String) :
    Option Int :=
  uniformFrameNum (extDecision (filterImages exts listing))
    (sceneDecision ((filterImages exts listing).map
      (stripExt (extDecision (filterImages exts listing))))) nm

/-- filesystem with one experiment whose images folder lists `scene2.png`
before `scene0.png` (scrambled filesystem order). -/
def c6Fs : FS :=
  ⟨["a"],
   fun p => ["R/a/labels", "R/a/labels/tongue", "R/a/labels/jaw",
     "R/a/images"].contains p,
   fun p =>
     if p = "R/a/images" then ["scene2.png", "scene0.png"]
     else if p = "R/a/labels/jaw" then ["k.csv"] else [],
   fun p =>
     if p = "R/a/labels/jaw/k.csv" then ["frame,x,y", "0,1,2"] else []⟩

/-- concrete per-experiment output of the `c6Fs` run. -/
def c6Out : ExpOut :=
  ⟨[⟨[2, 2, 3], "uint8", [3]⟩, ⟨[2, 2, 3], "uint8", [3]⟩],
   ["R/a/images/scene0.png", "R/a/images/scene2.png"],
   [npZeros [2, 2] "bool", npZeros [2, 2] "bool"],
   [⟨[2, 2], "uint8", [255]⟩, npZeros [2, 2] "uint8"]⟩

/-! ## General lemmas -/

instance {ε α : Type} [DecidableEq ε] [DecidableEq α] :
    DecidableEq (Except ε α) := fun x y =>
  match x, y with
  | .error a, .error b => decidable_of_iff (a = b) (by simp)
  | .error _, .ok _ => isFalse (by simp)
  | .ok _, .error _ => isFalse (by simp)
  | .ok a, .ok b => decidable_of_iff (a = b) (by simp)

theorem lookup_dictUpdate {α : Type} (d : List (Int × α)) (k : Int) (v : α)
    (f : Int) :
    (dictUpdate d k v).lookup f = if f = k then some v else d.lookup f := by
  induction d with
  | nil =>
    simp only [dictUpdate]
    by_cases hf : f = k
    · subst hf; simp [List.lookup]
    · have hb : (f == k) = false := beq_false_of_ne hf
      simp [List.lookup, hb, hf]
  | cons p t ih =>
    obtain ⟨k1, v1⟩ := p
    simp only [dictUpdate]
    by_cases h1 : k1 = k
    · subst h1
      simp only [if_pos rfl]
      by_cases hf : f = k1
      · subst hf; simp [List.lookup]
      · have hb : (f == k1) = false := beq_false_of_ne hf
        simp [List.lookup, hb, hf]
    · simp only [if_neg h1]
      by_cases hf : f = k1
      · subst hf
        simp [List.lookup, h1]
      · have hb : (f == k1) = false := beq_false_of_ne hf
        simp [List.lookup, hb, ih]

/-! ## C1: lock-step growth of the four per-experiment lists -/

theorem processFramesAux_lengths (ops : ExtOps) (fs : FS) (cfg : Config)
    (tongue_path : String) (maps : FrameMaps)
    (jaw_coords : List (Int × Option (Int × Int))) (origRes : Nat × Nat) :
    ∀ (frames : List Int) (acc out : ExpOut),
      processFramesAux ops fs cfg tongue_path maps jaw_coords origRes acc
        frames = .ok out →
      acc.images.length = acc.tongueMasks.length →
      acc.tongueMasks.length = acc.jawMasks.length →
      acc.jawMasks.length = acc.filenames.length →
      out.images.length = out.tongueMasks.length ∧
      out.tongueMasks.length = out.jawMasks.length ∧
      out.jawMasks.length = out.filenames.length := by
  intro frames
  induction frames with
  | nil =>
    intro acc out h h1 h2 h3
    simp only [processFramesAux] at h
    cases h
    exact ⟨h1, h2, h3⟩
  | cons f fr ih =>
    intro acc out h h1 h2 h3
    simp only [processFramesAux] at h
    cases hstep : processFrame ops fs cfg tongue_path maps jaw_coords origRes
        acc f with
    | error e => rw [hstep] at h; cases h
    | ok acc1 =>
      rw [hstep] at h
      refine ih acc1 out h ?_ ?_ ?_ <;>
      · simp only [processFrame] at hstep
        split at hstep
        · cases hstep; simp [h1, h2, h3]
        · split at hstep
          · cases hstep; simp [h1, h2, h3]
          · split at hstep
            · exact Except.noConfusion hstep
            · split at hstep
              · exact Except.noConfusion hstep
              · cases hstep; simp [h1, h2, h3]

/-- C1: for every experiment whose per-frame loop finishes (in particular
the external heatmap synthesizer returned normally on every call), the four
per-experiment lists `experiment_images`, `experiment_labels[0]`,
`experiment_labels[1]` and `experiment_image_filenames` have equal length:
every frame contributes to all four lists or to none, also when its tongue
mask file is absent or its keypoint is occluded or unannotated. -/
theorem lockstep_invariant (ops : ExtOps) (fs : FS) (cfg : Config)
    (tongue_path : String) (maps : FrameMaps)
    (jaw_coords : List (Int × Option (Int × Int))) (origRes : Nat × Nat)
    (frames : List Int) (out : ExpOut)
    (h : processFrames ops fs cfg tongue_path maps jaw_coords origRes frames =
      .ok out) :
    out.images.length = out.tongueMasks.length ∧
    out.tongueMasks.length = out.jawMasks.length ∧
    out.jawMasks.length = out.filenames.length :=
  processFramesAux_lengths ops fs cfg tongue_path maps jaw_coords origRes
    frames ⟨[], [], [], []⟩ out h rfl rfl rfl

/-- C1 witness: a concrete two-frame run (one frame with no tongue mask and
no keypoint) in which the loop finishes and the four lists all have length
one. -/
theorem lockstep_invariant_witness :
    processFrames wOps wFs wCfg "t" ⟨[(0, "p0")], [(0, "n0")]⟩ [] (4, 6) [0] =
      .ok ⟨[⟨[2, 2, 3], "uint8", [0]⟩], ["p0"],
           [npZeros [2, 2] "bool"], [npZeros [2, 2] "uint8"]⟩ ∧
    (ExpOut.mk [⟨[2, 2, 3], "uint8", [0]⟩] ["p0"]
        [npZeros [2, 2] "bool"] [npZeros [2, 2] "uint8"]).images.length =
      (ExpOut.mk [⟨[2, 2, 3], "uint8", [0]⟩] ["p0"]
        [npZeros [2, 2] "bool"] [npZeros [2, 2] "uint8"]).tongueMasks.length :=
  ⟨by decide,
   (lockstep_invariant wOps wFs wCfg "t" ⟨[(0, "p0")], [(0, "n0")]⟩ [] (4, 6)
     [0] _ (by decide)).1⟩

/-! ## C4: occlusion and absence are indistinguishable in the heatmap -/

/-- C4: for retained frames, a frame whose CSV row carries an occlusion
sentinel (its trimmed `x` or `y` is in the configured `occlusion_markers`)
is stored as occluded by the row loop, and its emitted jaw heatmap is
bit-identical to that of a frame with no CSV row at all: both are the
all-zero `uint8` array built by `np.zeros(target_resolution)`. -/
theorem occlusion_symmetry (cfg : Config) (ops : ExtOps) (origRes : Nat × Nat)
    (jaw_coords : List (Int × Option (Int × Int))) (f1 f2 : Int)
    (r0 r1 r2 : String) (rest : List String)
    (hne : ¬ (pyStrip r0 = "" ∨ pyStrip r1 = "" ∨ pyStrip r2 = ""))
    (h0 : pyInt (pyStrip r0) = some f1)
    (hsent : pyStrip r1 ∈ cfg.occlusion_markers ∨
      pyStrip r2 ∈ cfg.occlusion_markers)
    (h1 : jaw_coords.lookup f1 = some none)
    (h2 : jaw_coords.lookup f2 = none) :
    parseJawRow cfg.occlusion_markers (r0 :: r1 :: r2 :: rest) =
      some (f1, none) ∧
    jawMaskFor ops cfg origRes jaw_coords f1 =
      jawMaskFor ops cfg origRes jaw_coords f2 ∧
    jawMaskFor ops cfg origRes jaw_coords f1 =
      .ok (npZeros [cfg.target_resolution.1, cfg.target_resolution.2]
        "uint8") := by
  refine ⟨?_, ?_, ?_⟩
  · simp only [parseJawRow, resplitRow]
    rw [if_neg hne, h0]
    simp [hsent]
  · simp only [jawMaskFor]
    rw [h1, h2]
  · simp only [jawMaskFor]
    rw [h1]

/-- C4 witness: the sentinel row `1,nan,5` and the absent frame 2 both
yield the all-zero heatmap. -/
theorem occlusion_symmetry_witness :
    (¬ (pyStrip "1" = "" ∨ pyStrip "nan" = "" ∨ pyStrip "5" = "")) ∧
    pyInt (pyStrip "1") = some 1 ∧
    (pyStrip "nan" ∈ wCfg.occlusion_markers ∨
      pyStrip "5" ∈ wCfg.occlusion_markers) ∧
    ([((1 : Int), (none : Option (Int × Int)))].lookup (1 : Int) =
      some none) ∧
    ([((1 : Int), (none : Option (Int × Int)))].lookup (2 : Int) = none) ∧
    jawMaskFor wOps wCfg (4, 6) [(1, none)] 1 =
      jawMaskFor wOps wCfg (4, 6) [(1, none)] 2 :=
  ⟨by decide, by decide, by decide, by decide, by decide,
   (occlusion_symmetry wCfg wOps (4, 6) [(1, none)] 1 2 "1" "nan" "5" []
     (by decide) (by decide) (by decide) (by decide) (by decide)).2.1⟩

/-! ## C10: later CSV rows overwrite earlier rows for the same frame -/

theorem lookup_foldl_assign {α β : Type}
    (step : List (Int × β) → α → List (Int × β))
    (parse : α → Option (Int × β))
    (hnone : ∀ d x, parse x = none → step d x = d)
    (hsome : ∀ d x kv, parse x = some kv → step d x = dictUpdate d kv.1 kv.2) :
    ∀ (xs : List α) (d : List (Int × β)) (f : Int),
      (xs.foldl step d).lookup f =
      match (xs.filterMap parse).reverse.find? (fun kv => kv.1 == f) with
      | some kv => some kv.2
      | none => d.lookup f := by
  intro xs
  induction xs with
  | nil => intro d f; simp
  | cons x t ih =>
    intro d f
    simp only [List.foldl_cons, List.filterMap_cons]
    cases hp : parse x with
    | none =>
      rw [hnone d x hp, ih]
    | some kv =>
      rw [hsome d x kv hp, ih, List.reverse_cons, List.find?_append]
      cases hf : (t.filterMap parse).reverse.find? (fun kv1 => kv1.1 == f) with
      | some kv1 => simp [hf]
      | none =>
        by_cases hkf : kv.1 = f
        · simp [hf, List.find?, hkf, lookup_dictUpdate]
        · have hb : (kv.1 == f) = false := beq_false_of_ne hkf
          have hb2 : ¬ f = kv.1 := fun hh => hkf hh.symm
          simp [hf, List.find?, hb, lookup_dictUpdate, hb2]

/-- C10: the row loop implements last-row-wins: for every frame number, the
mapping built by the Coordinate Table Reader holds the value of the last
usable row (in file order) whose frame index is that number — also when an
occluded row is followed by a coordinate row for the same frame, or the
other way round. -/
theorem last_row_wins (markers : List String) (delim : Char)
    (lines : List String) (f : Int) :
    (readJawRows markers delim lines).lookup f =
      ((lines.filterMap
          (fun line => parseJawRow markers (csvRow delim line))).reverse.find?
          (fun kv => kv.1 == f)).map (fun kv => kv.2) := by
  unfold readJawRows
  rw [lookup_foldl_assign (jawRowStep markers delim)
    (fun line => parseJawRow markers (csvRow delim line))
    (fun d line hp => by simp [jawRowStep, assignStep, hp])
    (fun d line kv hp => by simp [jawRowStep, assignStep, hp]) lines [] f]
  cases hf : (lines.filterMap
      (fun line => parseJawRow markers (csvRow delim line))).reverse.find?
      (fun kv => kv.1 == f) <;> simp [hf]

/-! ## C9: under annotated-only policy, occluded is kept, absent is dropped -/

/-- C9: with `load_all_images = False`, a frame stored as occluded by the
reader (`frame in jaw_coords` holds, value `None`) stays in the selected
frame set and is emitted with the all-zero heatmap, while a frame with no
CSV row at all is dropped from the selected set. -/
theorem occluded_kept_absent_dropped (cfg : Config) (ops : ExtOps)
    (origRes : Nat × Nat) (all_frames : List Int)
    (jaw_coords : List (Int × Option (Int × Int))) (f1 f2 : Int)
    (hpol : cfg.load_all_images = false)
    (h1 : jaw_coords.lookup f1 = some none)
    (h2 : jaw_coords.lookup f2 = none)
    (hm1 : f1 ∈ all_frames) :
    f1 ∈ selectFrames cfg.load_all_images all_frames jaw_coords ∧
    f2 ∉ selectFrames cfg.load_all_images all_frames jaw_coords ∧
    jawMaskFor ops cfg origRes jaw_coords f1 =
      .ok (npZeros [cfg.target_resolution.1, cfg.target_resolution.2]
        "uint8") := by
  refine ⟨?_, ?_, ?_⟩
  · simp [selectFrames, hpol, List.mem_filter, hm1, h1]
  · simp [selectFrames, hpol, List.mem_filter, h2]
  · simp only [jawMaskFor]
    rw [h1]

/-- C9 witness: with frames 1 and 2 indexed, an occluded row for frame 1
and no row for frame 2, only frame 1 is selected, with a zero heatmap. -/
theorem occluded_kept_absent_dropped_witness :
    (1 : Int) ∈ selectFrames false [1, 2] [(1, none)] ∧
    (2 : Int) ∉ selectFrames false [1, 2] [(1, none)] ∧
    jawMaskFor wOps
      ⟨(2, 2), ' ', true, (480, 640), (25, 25), [".png"], "images", "labels",
       "tongue", "jaw", ["nan", "NaN", "NAN", "None", ""], false⟩
      (4, 6) [(1, none)] 1 = .ok (npZeros [2, 2] "uint8") :=
  occluded_kept_absent_dropped
    ⟨(2, 2), ' ', true, (480, 640), (25, 25), [".png"], "images", "labels",
     "tongue", "jaw", ["nan", "NaN", "NAN", "None", ""], false⟩
    wOps (4, 6) [1, 2] [(1, none)] 1 2 rfl (by decide) (by decide) (by decide)

/-! ## C3: a zero-byte jaw CSV crashes the run -/

/-- C3 evaluation: with the default configuration (`csv_has_header = True`)
an experiment whose jaw CSV is empty makes the unguarded `next(file)` of
source line 160 raise `StopIteration`, which escapes `load_licking_data`
instead of producing a logged skip. -/
theorem empty_csv_raises :
    loadModel defaultCfg wOps c3Fs "R" = .error .stopIteration := by decide

/-! ## C2: placeholder arrays are transposed for non-square resolutions -/

/-- C2 evaluation: with target resolution `(2, 3)`, resized images and the
resized tongue mask have `numpy` shape `(3, 2)` (height, width) while the
placeholder mask substituted for the missing label and the placeholder
heatmaps are `np.zeros(target_resolution)` of shape `(2, 3)`: the emitted
arrays do not share one resolution, refuting the resolution contract for
non-square targets. -/
theorem resolution_contract_mismatch :
    (loadModel c2Cfg c2Ops c2Fs "R").map
      (fun o => (o.images.map (fun m => m.shape),
        o.tongueMasks.map (fun m => m.shape),
        o.jawMasks.map (fun m => m.shape))) =
      .ok ([[3, 2, 3], [3, 2, 3]], [[3, 2], [2, 3]], [[2, 3], [2, 3]]) := by
  decide

/-! ## C7: the stripping decisions come from the first file, not each file -/

theorem strMk_data (s : String) : String.mk s.data = s := by
  cases s; rfl

theorem takeWhile_append_of_all {p : Char → Bool} :
    ∀ (l1 : List Char) (x : Char) (l2 : List Char),
      (∀ c ∈ l1, p c = true) → p x = false →
      (l1 ++ x :: l2).takeWhile p = l1 := by
  intro l1
  induction l1 with
  | nil => intro x l2 h1 hx; simp [List.takeWhile_cons, hx]
  | cons c t ih =>
    intro x l2 h1 hx
    have hc : p c = true := h1 c (by simp)
    simp [List.takeWhile_cons, hc,
      ih x l2 (fun d hd => h1 d (by simp [hd])) hx]

theorem basename_join (dir nm : String) (h : ¬ '/' ∈ nm.data) :
    pyBasenameList (pathJoin dir nm).data = nm.data := by
  have hslash : ("/" : String).data = ['/'] := rfl
  have hd : (pathJoin dir nm).data = dir.data ++ '/' :: nm.data := by
    simp [pathJoin, String.data_append, hslash]
  rw [pyBasenameList, hd]
  have hrev : (dir.data ++ '/' :: nm.data).reverse =
      nm.data.reverse ++ '/' :: dir.data.reverse := by
    simp [List.reverse_append]
  rw [hrev, takeWhile_append_of_all nm.data.reverse '/' dir.data.reverse
    (fun c hc => by
      have : c ∈ nm.data := List.mem_reverse.mp hc
      have hne : c ≠ '/' := fun he => h (he ▸ this)
      simp [hne])
    (by simp)]
  simp

theorem foldl_frameMapsStep_toPath :
    ∀ (entries : List (String × String × String)) (m : FrameMaps),
      (entries.foldl frameMapsStep m).toPath =
        entries.foldl framePathStep m.toPath := by
  intro entries
  induction entries with
  | nil => intro m; rfl
  | cons e t ih =>
    intro m
    simp only [List.foldl_cons]
    rw [ih]
    cases hp : pyInt e.2.2 <;> simp [frameMapsStep, framePathStep, hp]

theorem find_filterMap_num {γ : Type} (num : γ → Option Int)
    (path : γ → String) (f : Int) :
    ∀ l : List γ,
      ((l.filterMap (fun a => (num a).map (fun k => (k, path a)))).find?
        (fun kv => kv.1 == f)) =
      (l.find? (fun a => num a == some f)).map (fun a => (f, path a)) := by
  intro l
  induction l with
  | nil => simp
  | cons a t ih =>
    cases hn : num a with
    | none => simp [List.filterMap_cons, List.find?_cons, hn, ih]
    | some k =>
      by_cases hk : k = f
      · subst hk
        simp [List.filterMap_cons, List.find?_cons, hn]
      · have hb : (k == f) = false := beq_false_of_ne hk
        have hb2 : ((some k : Option Int) == some f) = false := by
          simp [hk]
        simp [List.filterMap_cons, List.find?_cons, hn, hb, hb2, ih]

/-- C7 counterexample: in the folder listing `scene1.png, 7.png`, the claim
predicts (per-file stripping) that `7.png` contributes frame 7; the code
takes both decisions from `scene1.png` and mangles `7.png` to the empty
string, so frame 7 is absent from the index while frame 1 is present. -/
theorem first_file_rule_cex :
    (frameIndexer "R/a/images" [".png"]
      ["scene1.png", "7.png"]).toPath.lookup 7 = none ∧
    perFileFrameNumSpec "7.png" = some 7 ∧
    perFileFrameNumSpec "scene1.png" = some 1 ∧
    (frameIndexer "R/a/images" [".png"]
      ["scene1.png", "7.png"]).toPath.lookup 1 =
      some "R/a/images/scene1.png" := by decide

theorem frameIndexer_lookup_eq (img_folder : String)
    (exts listing : List String)
    (f : Int) (hclean : ∀ nm ∈ listing, ¬ '/' ∈ nm.data) :
    (frameIndexer img_folder exts listing).toPath.lookup f =
      ((filterImages exts listing).reverse.find?
        (fun nm =>
          uniformFrameNum (extDecision (filterImages exts listing))
            (sceneDecision ((filterImages exts listing).map
              (stripExt (extDecision (filterImages exts listing))))) nm ==
            some f)).map (pathJoin img_folder) := by
  have hsub : ∀ nm ∈ filterImages exts listing, ¬ '/' ∈ nm.data := by
    intro nm hm
    exact hclean nm (List.mem_filter.mp hm).1
  have hnames :
      ((filterImages exts listing).map (pathJoin img_folder)).map
        (fun p => String.mk (pyBasenameList p.data)) =
      filterImages exts listing := by
    rw [List.map_map]
    have hpt : ∀ nm ∈ filterImages exts listing,
        ((fun p => String.mk (pyBasenameList p.data)) ∘ pathJoin img_folder)
          nm = id nm := by
      intro nm hm
      simp only [Function.comp_apply, id_eq]
      rw [basename_join _ _ (hsub nm hm), strMk_data]
    rw [List.map_congr_left hpt, List.map_id]
  simp only [frameIndexer]
  rw [hnames]
  rw [List.map_map, List.zip_map', List.zip_map', buildFrameMaps,
    foldl_frameMapsStep_toPath]
  rw [lookup_foldl_assign framePathStep
    (fun e => (pyInt e.2.2).map (fun k => (k, e.1)))
    (fun d e hp => by
      simp only at hp
      cases hq : pyInt e.2.2 with
      | none => simp [framePathStep, hq]
      | some k => simp [hq] at hp)
    (fun d e kv hp => by
      simp only at hp
      cases hq : pyInt e.2.2 with
      | none => simp [hq] at hp
      | some k =>
        simp [hq] at hp
        simp [framePathStep, hq, ← hp])]
  rw [List.filterMap_map, ← List.filterMap_reverse]
  simp only [Function.comp_def, uniformFrameNum]
  rw [find_filterMap_num
    (fun nm => pyInt (stripScene
      (sceneDecision ((filterImages exts listing).map
        (stripExt (extDecision (filterImages exts listing)))))
      (stripExt (extDecision (filterImages exts listing)) nm)))
    (pathJoin img_folder) f]
  cases hf : (filterImages exts listing).reverse.find?
      (fun nm =>
        pyInt (stripScene
          (sceneDecision ((filterImages exts listing).map
            (stripExt (extDecision (filterImages exts listing)))))
          (stripExt (extDecision (filterImages exts listing)) nm)) ==
          some f) <;> simp [hf]

/-- C7 amended: every file is stripped with the decisions taken once from
the first listed file (`usePng` from the first filename, `useScene` from
the first stem); a file's frame number is the integer parse of its
uniformly-stripped stem, and the index maps a frame to the last accepted
file with that number. -/
theorem first_file_rule (img_folder : String) (exts listing : List String)
    (f : Int) (hclean : ∀ nm ∈ listing, ¬ '/' ∈ nm.data) :
    (frameIndexer img_folder exts listing).toPath.lookup f =
      ((filterImages exts listing).reverse.find?
        (fun nm =>
          uniformFrameNum (extDecision (filterImages exts listing))
            (sceneDecision ((filterImages exts listing).map
              (stripExt (extDecision (filterImages exts listing))))) nm ==
            some f)).map (pathJoin img_folder) :=
  frameIndexer_lookup_eq img_folder exts listing f hclean

/-- C7 amended witness: the mixed folder from the counterexample, queried
at frame 1. -/
theorem first_file_rule_witness :
    (∀ nm ∈ ["scene1.png", "7.png"], ¬ '/' ∈ nm.data) ∧
    (frameIndexer "R/a/images" [".png"]
      ["scene1.png", "7.png"]).toPath.lookup 1 =
      ((filterImages [".png"] ["scene1.png", "7.png"]).reverse.find?
        (fun nm =>
          uniformFrameNum
            (extDecision (filterImages [".png"] ["scene1.png", "7.png"]))
            (sceneDecision
              ((filterImages [".png"] ["scene1.png", "7.png"]).map
                (stripExt (extDecision
                  (filterImages [".png"] ["scene1.png", "7.png"]))))) nm ==
            some 1)).map (pathJoin "R/a/images") :=
  ⟨by decide,
   first_file_rule "R/a/images" [".png"] ["scene1.png", "7.png"] 1
     (by decide)⟩

/-! ## C8: experiments are visited in raw listing order, not sorted order -/

/-- C8 counterexample: the source never sorts `os.listdir(data_folder)`
(lines 70-84), so with listing order `b, a` the emitted sample blocks come
in the order `b, a` — not in lexicographically ascending experiment order,
which the spec-following name-sorted enumeration would give. -/
theorem listdir_order_cex :
    (loadModel wCfg c2Ops c8Fs "R").map (fun o => o.filenames) =
      .ok ["R/b/images/0.png", "R/a/images/0.png"] ∧
    (loadModelNameSorted wCfg c2Ops c8Fs "R").map (fun o => o.filenames) =
      .ok ["R/a/images/0.png", "R/b/images/0.png"] := by decide

theorem loadAux_filenames (cfg : Config) (ops : ExtOps) (fs : FS)
    (data_folder : String) :
    ∀ (dirs : List String) (acc out : LoadOut),
      loadAux cfg ops fs data_folder acc dirs = .ok out →
      out.filenames = acc.filenames ++
        (dirs.map (fun e =>
          match processExperiment cfg ops fs data_folder e with
          | .ok (some r) => r.filenames
          | _ => [])).flatten := by
  intro dirs
  induction dirs with
  | nil =>
    intro acc out h
    simp only [loadAux] at h
    cases h
    simp
  | cons e rest ih =>
    intro acc out h
    simp only [loadAux] at h
    cases hp : processExperiment cfg ops fs data_folder e with
    | error err => rw [hp] at h; cases h
    | ok r =>
      rw [hp] at h
      have hout := ih (appendExp acc r) out h
      cases r with
      | none => simp [hp, appendExp] at hout ⊢; simpa using hout
      | some rexp =>
        simp [hp, appendExp] at hout ⊢
        simp [hout]

/-- C8 amended: the Dataset Assembler enumerates the immediate
subdirectories of the root in raw `os.listdir` order and concatenates the
non-skipped experiments' sample blocks in exactly that order (frame order
within each block); no name sorting is applied. -/
theorem assembler_listing_order (cfg : Config) (ops : ExtOps) (fs : FS)
    (data_folder : String) (out : LoadOut)
    (h : loadModel cfg ops fs data_folder = .ok out) :
    out.filenames = (fs.rootDirs.map (fun e =>
      match processExperiment cfg ops fs data_folder e with
      | .ok (some r) => r.filenames
      | _ => [])).flatten := by
  have hx := loadAux_filenames cfg ops fs data_folder fs.rootDirs
    ⟨[], [], [], []⟩ out h
  simpa using hx

/-- C8 amended witness: on the two-experiment filesystem the concatenated
filename list equals the join of the per-experiment blocks in listing
order. -/
theorem assembler_listing_order_witness :
    loadModel wCfg c2Ops c8Fs "R" = .ok c8Out ∧
    c8Out.filenames = (c8Fs.rootDirs.map (fun e =>
      match processExperiment wCfg c2Ops c8Fs "R" e with
      | .ok (some r) => r.filenames
      | _ => [])).flatten :=
  ⟨by decide,
   assembler_listing_order wCfg c2Ops c8Fs "R" c8Out (by decide)⟩

/-! ## C6: samples are emitted in strictly ascending frame order -/

theorem frameIndexer_lookup_parse (img_folder : String)
    (exts listing : List String) (f : Int) (p : String)
    (hclean : ∀ nm ∈ listing, ¬ '/' ∈ nm.data)
    (hl : (frameIndexer img_folder exts listing).toPath.lookup f = some p) :
    uniformNumOfListing exts listing (String.mk (pyBasenameList p.data)) =
      some f := by
  rw [frameIndexer_lookup_eq img_folder exts listing f hclean] at hl
  cases hfind : (filterImages exts listing).reverse.find?
      (fun nm =>
        uniformFrameNum (extDecision (filterImages exts listing))
          (sceneDecision ((filterImages exts listing).map
            (stripExt (extDecision (filterImages exts listing))))) nm ==
          some f) with
  | none => rw [hfind] at hl; simp at hl
  | some nm =>
    rw [hfind] at hl
    simp only [Option.map_some'] at hl
    have hp2 : pathJoin img_folder nm = p := by
      exact Option.some.inj hl
    have hpred := List.find?_some hfind
    have hmem : nm ∈ filterImages exts listing :=
      List.mem_reverse.mp (List.mem_of_find?_eq_some hfind)
    have hnm : ¬ '/' ∈ nm.data := hclean nm (List.mem_filter.mp hmem).1
    rw [← hp2, basename_join _ _ hnm, strMk_data]
    simpa [uniformNumOfListing] using hpred

theorem mem_keys_dictUpdate {α : Type} :
    ∀ (d : List (Int × α)) (k : Int) (v : α) (a : Int),
      (a ∈ (dictUpdate d k v).map (fun kv => kv.1) ↔
        a ∈ d.map (fun kv => kv.1) ∨ a = k) := by
  intro d
  induction d with
  | nil => intro k v a; simp [dictUpdate]
  | cons p t ih =>
    intro k v a
    obtain ⟨k1, v1⟩ := p
    by_cases h1 : k1 = k
    · subst h1
      simp [dictUpdate]
      tauto
    · simp [dictUpdate, h1, ih]
      tauto

theorem keys_dictUpdate_nodup {α : Type} :
    ∀ (d : List (Int × α)) (k : Int) (v : α),
      (d.map (fun kv => kv.1)).Nodup →
      ((dictUpdate d k v).map (fun kv => kv.1)).Nodup := by
  intro d
  induction d with
  | nil => intro k v _; simp [dictUpdate]
  | cons p t ih =>
    intro k v hn
    obtain ⟨k1, v1⟩ := p
    simp only [List.map_cons, List.nodup_cons] at hn
    by_cases h1 : k1 = k
    · subst h1
      have hup : dictUpdate ((k1, v1) :: t) k1 v = (k1, v) :: t := by
        simp [dictUpdate]
      rw [hup]
      simp only [List.map_cons, List.nodup_cons]
      exact hn
    · simp only [dictUpdate, if_neg h1, List.map_cons, List.nodup_cons]
      refine ⟨?_, ih k v hn.2⟩
      rw [mem_keys_dictUpdate]
      intro hc
      cases hc with
      | inl hc => exact hn.1 hc
      | inr hc => exact h1 hc

theorem foldl_framePathStep_keys_nodup :
    ∀ (entries : List (String × String × String)) (d : List (Int × String)),
      (d.map (fun kv => kv.1)).Nodup →
      ((entries.foldl framePathStep d).map (fun kv => kv.1)).Nodup := by
  intro entries
  induction entries with
  | nil => intro d hd; simpa using hd
  | cons e t ih =>
    intro d hd
    simp only [List.foldl_cons]
    cases hp : pyInt e.2.2 with
    | none =>
      have : framePathStep d e = d := by simp [framePathStep, hp]
      rw [this]
      exact ih d hd
    | some k =>
      have : framePathStep d e = dictUpdate d k e.1 := by
        simp [framePathStep, hp]
      rw [this]
      exact ih _ (keys_dictUpdate_nodup d k e.1 hd)

theorem frameIndexer_keys_nodup (img_folder : String)
    (exts listing : List String) :
    ((frameIndexer img_folder exts listing).toPath.map
      (fun kv => kv.1)).Nodup := by
  simp only [frameIndexer, buildFrameMaps]
  rw [foldl_frameMapsStep_toPath]
  exact foldl_framePathStep_keys_nodup _ [] (by simp)

theorem lookup_isSome_of_mem_keys {α : Type} :
    ∀ (d : List (Int × α)) (f : Int),
      f ∈ d.map (fun kv => kv.1) → ∃ v, d.lookup f = some v := by
  intro d
  induction d with
  | nil => intro f hf; simp at hf
  | cons p t ih =>
    intro f hf
    obtain ⟨k1, v1⟩ := p
    by_cases h1 : f = k1
    · subst h1
      exact ⟨v1, by simp [List.lookup]⟩
    · have hb : (f == k1) = false := beq_false_of_ne h1
      simp only [List.map_cons, List.mem_cons] at hf
      cases hf with
      | inl hc => exact absurd hc h1
      | inr hc =>
        obtain ⟨v, hv⟩ := ih f hc
        exact ⟨v, by simp [List.lookup, hb, hv]⟩

theorem exceptMap_some_ok {ε α : Type} {m : Except ε α} {out : α}
    (h : m.map some = .ok (some out)) : m = .ok out := by
  cases m with
  | error e => simp [Except.map] at h
  | ok r =>
    simp [Except.map] at h
    rw [h]

theorem processFramesAux_filenames (ops : ExtOps) (fs : FS) (cfg : Config)
    (tongue_path : String) (maps : FrameMaps)
    (jaw_coords : List (Int × Option (Int × Int))) (origRes : Nat × Nat) :
    ∀ (frames : List Int) (acc out : ExpOut),
      processFramesAux ops fs cfg tongue_path maps jaw_coords origRes acc
        frames = .ok out →
      ∃ sub : List Int, sub.Sublist frames ∧
        out.filenames = acc.filenames ++
          sub.map (fun f => (maps.toPath.lookup f).getD "") := by
  intro frames
  induction frames with
  | nil =>
    intro acc out h
    simp only [processFramesAux] at h
    cases h
    exact ⟨[], List.nil_sublist _, by simp⟩
  | cons f fr ih =>
    intro acc out h
    simp only [processFramesAux] at h
    cases hstep : processFrame ops fs cfg tongue_path maps jaw_coords origRes
        acc f with
    | error e => rw [hstep] at h; cases h
    | ok acc1 =>
      rw [hstep] at h
      obtain ⟨sub, hs, hf⟩ := ih acc1 out h
      simp only [processFrame] at hstep
      split at hstep
      · cases hstep; exact ⟨sub, hs.cons f, hf⟩
      · split at hstep
        · cases hstep; exact ⟨sub, hs.cons f, hf⟩
        · split at hstep
          · exact Except.noConfusion hstep
          · split at hstep
            · exact Except.noConfusion hstep
            · cases hstep
              refine ⟨f :: sub, hs.cons₂ f, ?_⟩
              rw [hf]
              simp

theorem selectFrames_sorted (b : Bool) (all_frames : List Int)
    (jaw_coords : List (Int × Option (Int × Int)))
    (h : List.Sorted (· < ·) all_frames) :
    List.Sorted (· < ·) (selectFrames b all_frames jaw_coords) := by
  unfold selectFrames
  split
  · exact h
  · exact h.filter _

theorem mem_of_mem_selectFrames (b : Bool) (all_frames : List Int)
    (jaw_coords : List (Int × Option (Int × Int))) (f : Int)
    (h : f ∈ selectFrames b all_frames jaw_coords) : f ∈ all_frames := by
  revert h
  unfold selectFrames
  split
  · exact fun hx => hx
  · exact fun hx => (List.mem_filter.mp hx).1

theorem processFrames_filenames (ops : ExtOps) (fs : FS) (cfg : Config)
    (tongue_path : String) (maps : FrameMaps)
    (jaw_coords : List (Int × Option (Int × Int))) (origRes : Nat × Nat)
    (frames : List Int) (out : ExpOut)
    (h : processFrames ops fs cfg tongue_path maps jaw_coords origRes frames =
      .ok out) :
    ∃ sub : List Int, sub.Sublist frames ∧
      out.filenames = sub.map (fun f => (maps.toPath.lookup f).getD "") := by
  obtain ⟨sub, hs, hf⟩ := processFramesAux_filenames ops fs cfg tongue_path
    maps jaw_coords origRes frames ⟨[], [], [], []⟩ out h
  exact ⟨sub, hs, by simpa using hf⟩

/-- C6: within every non-skipped experiment the samples come out in
strictly ascending frame order: the emitted filename list, parsed back
through the experiment's own frame-number rule, equals a strictly
increasing list of frame numbers — independent of the filesystem's listing
order. -/
theorem frame_ascending_order (cfg : Config) (ops : ExtOps) (fs : FS)
    (data_folder experiment_folder : String) (out : ExpOut)
    (hclean : ∀ nm ∈ fs.listDir
      (imagesFolderOf cfg data_folder experiment_folder), ¬ '/' ∈ nm.data)
    (h : processExperiment cfg ops fs data_folder experiment_folder =
      .ok (some out)) :
    ∃ fr : List Int, List.Sorted (· < ·) fr ∧
      out.filenames.map (fun p =>
        uniformNumOfListing cfg.image_extensions
          (fs.listDir (imagesFolderOf cfg data_folder experiment_folder))
          (String.mk (pyBasenameList p.data))) = fr.map some := by
  simp only [imagesFolderOf] at hclean ⊢
  simp only [processExperiment] at h
  split at h
  · simp at h
  · split at h
    · simp at h
    · split at h
      · simp at h
      · split at h
        · simp at h
        · split at h
          · simp at h
          · split at h
            · simp at h
            · split at h
              · simp at h
              · split at h
                · simp at h
                · split at h
                  · simp at h
                  · have hrun := exceptMap_some_ok h
                    obtain ⟨sub, hsubl, hfiles⟩ :=
                      processFrames_filenames _ _ _ _ _ _ _ _ _ hrun
                    refine ⟨sub, ?_, ?_⟩
                    · refine (selectFrames_sorted _ _ _ ?_).sublist hsubl
                      refine List.Sorted.lt_of_le
                        (List.sorted_insertionSort _ _) ?_
                      refine ((List.perm_insertionSort _ _).nodup_iff).mpr ?_
                      exact frameIndexer_keys_nodup _ _ _
                    · rw [hfiles, List.map_map]
                      refine List.map_congr_left ?_
                      intro f1 hf1
                      have hmem1 := hsubl.subset hf1
                      have hmem2 := mem_of_mem_selectFrames _ _ _ _ hmem1
                      have hmem3 := (List.perm_insertionSort (α := Int)
                        (· ≤ ·) _).mem_iff.mp hmem2
                      obtain ⟨p, hp⟩ := lookup_isSome_of_mem_keys _ f1 hmem3
                      simp only [Function.comp_apply, hp, Option.getD_some]
                      exact frameIndexer_lookup_parse _ _ _ f1 p hclean hp

/-- C6 witness: with listing order `scene2.png, scene0.png` the samples
still come out frame-ascending (`scene0` before `scene2`). -/
theorem frame_ascending_order_witness :
    processExperiment wCfg c2Ops c6Fs "R" "a" = .ok (some c6Out) ∧
    (∃ fr : List Int, List.Sorted (· < ·) fr ∧
      c6Out.filenames.map (fun p =>
        uniformNumOfListing wCfg.image_extensions
          (c6Fs.listDir (imagesFolderOf wCfg "R" "a"))
          (String.mk (pyBasenameList p.data))) = fr.map some) :=
  ⟨by decide,
   frame_ascending_order wCfg c2Ops c6Fs "R" "a" c6Out (by decide) (by decide)⟩

/-! ## C5: delimiter robustness of the Coordinate Table Reader -/

theorem splitCh_no_delim (d : Char) :
    ∀ (f : List Char), d ∉ f → splitCh d f = [f] := by
  intro f
  induction f with
  | nil => intro _; rfl
  | cons c cs ih =>
    intro h
    have hc : ¬ c = d := fun he => h (by simp [he])
    have ht : d ∉ cs := fun hm => h (List.mem_cons_of_mem c hm)
    simp [splitCh, if_neg hc, ih ht]

theorem splitCh_append (d : Char) :
    ∀ (f rest : List Char), d ∉ f →
      splitCh d (f ++ d :: rest) = f :: splitCh d rest := by
  intro f
  induction f with
  | nil => intro rest _; simp [splitCh]
  | cons c cs ih =>
    intro rest h
    have hc : ¬ c = d := fun he => h (by simp [he])
    have ht : d ∉ cs := fun hm => h (List.mem_cons_of_mem c hm)
    simp [List.cons_append, splitCh, if_neg hc, ih rest ht]

theorem csvRow_serializeRow (d : Char) (r : String × String × String)
    (hf : r.1 ≠ "") (h1 : d ∉ r.1.data) (h2 : d ∉ r.2.1.data)
    (h3 : d ∉ r.2.2.data) :
    csvRow d (serializeRow d r) = [r.1, r.2.1, r.2.2] := by
  obtain ⟨c0, t0, h10⟩ : ∃ c0 t0, r.1.data = c0 :: t0 := by
    cases hx : r.1.data with
    | nil =>
      exact absurd (by rw [← strMk_data r.1, hx]) hf
    | cons a b => exact ⟨a, b, rfl⟩
  have hdata : (serializeRow d r).data =
      r.1.data ++ d :: (r.2.1.data ++ d :: r.2.2.data) := rfl
  have hdata2 : (serializeRow d r).data =
      c0 :: (t0 ++ d :: (r.2.1.data ++ d :: r.2.2.data)) := by
    rw [hdata, h10, List.cons_append]
  have hsplit : splitCh d (serializeRow d r).data =
      [r.1.data, r.2.1.data, r.2.2.data] := by
    rw [hdata, splitCh_append d _ _ h1, splitCh_append d _ _ h2,
      splitCh_no_delim d _ h3]
  unfold csvRow
  rw [hdata2]
  dsimp only
  rw [← hdata2, hsplit]
  simp [strMk_data]

theorem foldl_congr_mem {α β : Type} (f g : β → α → β) :
    ∀ (l : List α) (b : β), (∀ a ∈ l, ∀ x, f x a = g x a) →
      l.foldl f b = l.foldl g b := by
  intro l
  induction l with
  | nil => intro b _; rfl
  | cons a t ih =>
    intro b h
    simp only [List.foldl_cons]
    rw [h a (by simp) b]
    exact ih (g b a) (fun x hx y => h x (by simp [hx]) y)

theorem dropWhile_all_false {p : Char → Bool} :
    ∀ (l : List Char), (∀ c ∈ l, p c = false) → l.dropWhile p = l := by
  intro l h
  cases l with
  | nil => rfl
  | cons c t => simp [List.dropWhile_cons, h c (by simp)]

theorem pyStripList_all_nonws (l : List Char)
    (h : ∀ c ∈ l, isPySpace c = false) : pyStripList l = l := by
  unfold pyStripList
  rw [dropWhile_all_false l h,
    dropWhile_all_false _ (fun c hc => h c (List.mem_reverse.mp hc)),
    List.reverse_reverse]

theorem mem_of_mem_dropWhileCh {p : Char → Bool} :
    ∀ (l : List Char) (c : Char), c ∈ l.dropWhile p → c ∈ l := by
  intro l
  induction l with
  | nil => intro c h; simp at h
  | cons a t ih =>
    intro c h
    by_cases hp : p a = true
    · rw [List.dropWhile_cons, if_pos hp] at h
      exact List.mem_cons_of_mem a (ih c h)
    · rw [List.dropWhile_cons, if_neg hp] at h
      exact h

theorem mem_pyStripList_sub (l : List Char) (c : Char)
    (h : c ∈ pyStripList l) : c ∈ l := by
  unfold pyStripList at h
  have h1 := List.mem_reverse.mp h
  have h2 := mem_of_mem_dropWhileCh _ _ h1
  have h3 := List.mem_reverse.mp h2
  exact mem_of_mem_dropWhileCh _ _ h3

theorem dropWhile_append_of_exists {p : Char → Bool} :
    ∀ (l1 : List Char), (∃ a ∈ l1, p a = false) → ∀ (l2 : List Char),
      (l1 ++ l2).dropWhile p = l1.dropWhile p ++ l2 := by
  intro l1
  induction l1 with
  | nil =>
    intro h
    obtain ⟨a, ha, _⟩ := h
    simp at ha
  | cons b t ih =>
    intro h l2
    by_cases hb : p b = true
    · simp only [List.cons_append, List.dropWhile_cons, hb, if_true]
      obtain ⟨a, ha, hpa⟩ := h
      have hat : a ∈ t := by
        cases List.mem_cons.mp ha with
        | inl he => rw [he, hb] at hpa; exact absurd hpa (by simp)
        | inr hmem => exact hmem
      exact ih ⟨a, hat, hpa⟩ l2
    · have hb2 : p b = false := by
        cases hq : p b with
        | false => rfl
        | true => exact absurd hq hb
      simp [List.cons_append, List.dropWhile_cons, hb2]

theorem mem_strip_serialized (d : Char) (f0 x0 y0 : List Char)
    (hf0 : ∀ c ∈ f0, isPySpace c = false)
    (hx0 : ∀ c ∈ x0, isPySpace c = false)
    (hy0 : ∀ c ∈ y0, isPySpace c = false)
    (hne : f0 ≠ []) (hxy : ¬ (x0 = [] ∧ y0 = [])) :
    d ∈ pyStripList (f0 ++ d :: (x0 ++ d :: y0)) := by
  have hwit0 : ∃ a ∈ f0, isPySpace a = false := by
    cases f0 with
    | nil => exact absurd rfl hne
    | cons c t => exact ⟨c, by simp, hf0 c (by simp)⟩
  unfold pyStripList
  rw [dropWhile_append_of_exists f0 hwit0 (d :: (x0 ++ d :: y0)),
    dropWhile_all_false f0 hf0]
  have hrev : (f0 ++ d :: (x0 ++ d :: y0)).reverse =
      y0.reverse ++ d :: (x0.reverse ++ d :: f0.reverse) := by
    simp
  rw [hrev, List.mem_reverse]
  by_cases hy : y0 = []
  · have hx : x0 ≠ [] := fun h => hxy ⟨h, hy⟩
    have hwitx : ∃ a ∈ x0.reverse, isPySpace a = false := by
      cases hq : x0 with
      | nil => exact absurd hq hx
      | cons c t =>
        exact ⟨c, by simp [hq], hx0 c (by simp [hq])⟩
    subst hy
    simp only [List.reverse_nil, List.nil_append]
    by_cases hd : isPySpace d = true
    · rw [List.dropWhile_cons, if_pos hd,
        dropWhile_append_of_exists x0.reverse hwitx (d :: f0.reverse)]
      simp
    · rw [List.dropWhile_cons, if_neg hd]
      simp
  · have hwity : ∃ a ∈ y0.reverse, isPySpace a = false := by
      cases hq : y0 with
      | nil => exact absurd hq hy
      | cons c t =>
        exact ⟨c, by simp [hq], hy0 c (by simp [hq])⟩
    rw [dropWhile_append_of_exists y0.reverse hwity
      (d :: (x0.reverse ++ d :: f0.reverse))]
    simp

/-- characters of a clean field: no delimiter candidates, no whitespace. -/
theorem cleanFieldB_props (s : String) (h : cleanFieldB s = true) :
    ∀ c ∈ s.data, c ≠ ',' ∧ c ≠ ' ' ∧ c ≠ '\t' ∧ isPySpace c = false := by
  intro c hc
  unfold cleanFieldB at h
  have hx := List.all_eq_true.mp h c hc
  simp only [Bool.and_eq_true, Bool.not_eq_eq_eq_not, Bool.not_true,
    beq_eq_false_iff_ne, ne_eq] at hx
  obtain ⟨⟨⟨⟨⟨hcm, hsp⟩, htb⟩, _⟩, hnl⟩, hcr⟩ := hx
  refine ⟨hcm, hsp, htb, ?_⟩
  unfold isPySpace
  have b1 : (c == ' ') = false := beq_false_of_ne hsp
  have b2 : (c == '\t') = false := beq_false_of_ne htb
  have b3 : (c == '\n') = false := beq_false_of_ne hnl
  have b4 : (c == '\r') = false := beq_false_of_ne hcr
  simp [b1, b2, b3, b4]

theorem detectDelimiter_eq_data (s : String) (cd : Char) :
    detectDelimiter s cd =
      (if ',' ∈ pyStripList s.data then ','
       else if ' ' ∈ pyStripList s.data then ' '
       else if '\t' ∈ pyStripList s.data then '\t' else cd) := rfl

theorem not_mem_line (c d : Char) (f0 x0 y0 : List Char)
    (h0 : c ∉ f0) (h1 : c ∉ x0) (h2 : c ∉ y0) (hd : c ≠ d) :
    c ∉ f0 ++ d :: (x0 ++ d :: y0) := by
  simp [List.mem_append, List.mem_cons, h0, h1, h2, hd]

theorem detect_serialized (cd : Char) (r : String × String × String)
    (hc1 : cleanFieldB r.1 = true) (hc2 : cleanFieldB r.2.1 = true)
    (hc3 : cleanFieldB r.2.2 = true)
    (hf : r.1 ≠ "") (hxy : ¬ (r.2.1 = "" ∧ r.2.2 = "")) :
    detectDelimiter (serializeRow ',' r) cd = ',' ∧
    detectDelimiter (serializeRow ' ' r) cd = ' ' ∧
    detectDelimiter (serializeRow '\t' r) cd = '\t' := by
  have p1 := cleanFieldB_props r.1 hc1
  have p2 := cleanFieldB_props r.2.1 hc2
  have p3 := cleanFieldB_props r.2.2 hc3
  have hf0 : r.1.data ≠ [] := fun hx => hf (by rw [← strMk_data r.1, hx])
  have hxy2 : ¬ (r.2.1.data = [] ∧ r.2.2.data = []) := fun hx =>
    hxy ⟨by rw [← strMk_data r.2.1, hx.1],
         by rw [← strMk_data r.2.2, hx.2]⟩
  have hws1 : ∀ c ∈ r.1.data, isPySpace c = false :=
    fun c hc => (p1 c hc).2.2.2
  have hws2 : ∀ c ∈ r.2.1.data, isPySpace c = false :=
    fun c hc => (p2 c hc).2.2.2
  have hws3 : ∀ c ∈ r.2.2.data, isPySpace c = false :=
    fun c hc => (p3 c hc).2.2.2
  refine ⟨?_, ?_, ?_⟩
  · have hdata : (serializeRow ',' r).data =
        r.1.data ++ ',' :: (r.2.1.data ++ ',' :: r.2.2.data) := rfl
    have hall : ∀ c ∈ r.1.data ++ ',' :: (r.2.1.data ++ ',' :: r.2.2.data),
        isPySpace c = false := by
      intro c hc
      simp only [List.mem_append, List.mem_cons] at hc
      rcases hc with hc | hc | hc | hc | hc
      · exact hws1 c hc
      · rw [hc]; rfl
      · exact hws2 c hc
      · rw [hc]; rfl
      · exact hws3 c hc
    rw [detectDelimiter_eq_data, hdata, pyStripList_all_nonws _ hall,
      if_pos (by simp)]
  · have hdata : (serializeRow ' ' r).data =
        r.1.data ++ ' ' :: (r.2.1.data ++ ' ' :: r.2.2.data) := rfl
    have hmem : ' ' ∈ pyStripList
        (r.1.data ++ ' ' :: (r.2.1.data ++ ' ' :: r.2.2.data)) :=
      mem_strip_serialized ' ' _ _ _ hws1 hws2 hws3 hf0 hxy2
    have hnc : ',' ∉ pyStripList
        (r.1.data ++ ' ' :: (r.2.1.data ++ ' ' :: r.2.2.data)) := by
      intro hin
      exact not_mem_line ',' ' ' _ _ _
        (fun hm => (p1 ',' hm).1 rfl) (fun hm => (p2 ',' hm).1 rfl)
        (fun hm => (p3 ',' hm).1 rfl) (by decide)
        (mem_pyStripList_sub _ _ hin)
    rw [detectDelimiter_eq_data, hdata, if_neg hnc, if_pos hmem]
  · have hdata : (serializeRow '\t' r).data =
        r.1.data ++ '\t' :: (r.2.1.data ++ '\t' :: r.2.2.data) := rfl
    have hmem : '\t' ∈ pyStripList
        (r.1.data ++ '\t' :: (r.2.1.data ++ '\t' :: r.2.2.data)) :=
      mem_strip_serialized '\t' _ _ _ hws1 hws2 hws3 hf0 hxy2
    have hnc : ',' ∉ pyStripList
        (r.1.data ++ '\t' :: (r.2.1.data ++ '\t' :: r.2.2.data)) := by
      intro hin
      exact not_mem_line ',' '\t' _ _ _
        (fun hm => (p1 ',' hm).1 rfl) (fun hm => (p2 ',' hm).1 rfl)
        (fun hm => (p3 ',' hm).1 rfl) (by decide)
        (mem_pyStripList_sub _ _ hin)
    have hns : ' ' ∉ pyStripList
        (r.1.data ++ '\t' :: (r.2.1.data ++ '\t' :: r.2.2.data)) := by
      intro hin
      exact not_mem_line ' ' '\t' _ _ _
        (fun hm => (p1 ' ' hm).2.1 rfl) (fun hm => (p2 ' ' hm).2.1 rfl)
        (fun hm => (p3 ' ' hm).2.1 rfl) (by decide)
        (mem_pyStripList_sub _ _ hin)
    rw [detectDelimiter_eq_data, hdata, if_neg hnc, if_neg hns, if_pos hmem]

theorem readJawCsv_serialize (d : Char)
    (hd : d = ',' ∨ d = ' ' ∨ d = '\t')
    (cd : Char) (markers : List String)
    (rows : List (String × String × String))
    (hclean : ∀ r ∈ rows, cleanFieldB r.1 = true ∧
      cleanFieldB r.2.1 = true ∧ cleanFieldB r.2.2 = true)
    (hfr : ∀ r ∈ rows, r.1 ≠ "")
    (hhead : ∀ r, rows.head? = some r → ¬ (r.2.1 = "" ∧ r.2.2 = "")) :
    readJawCsv false cd markers (serializeRows d rows) =
      .ok (rows.foldl
        (fun dict r => assignStep markers dict [r.1, r.2.1, r.2.2]) []) := by
  have hnotmem : ∀ (s : String), cleanFieldB s = true → d ∉ s.data := by
    intro s hs hin
    have hp := cleanFieldB_props s hs d hin
    rcases hd with rfl | rfl | rfl
    · exact hp.1 rfl
    · exact hp.2.1 rfl
    · exact hp.2.2.1 rfl
  cases rows with
  | nil => rcases hd with rfl | rfl | rfl <;> rfl
  | cons r0 rest =>
    obtain ⟨hc1, hc2, hc3⟩ := hclean r0 (by simp)
    have hdet : detectDelimiter (serializeRow d r0) cd = d := by
      rcases hd with rfl | rfl | rfl
      · exact (detect_serialized cd r0 hc1 hc2 hc3 (hfr r0 (by simp))
          (hhead r0 rfl)).1
      · exact (detect_serialized cd r0 hc1 hc2 hc3 (hfr r0 (by simp))
          (hhead r0 rfl)).2.1
      · exact (detect_serialized cd r0 hc1 hc2 hc3 (hfr r0 (by simp))
          (hhead r0 rfl)).2.2
    have hlines : serializeRows d (r0 :: rest) =
        serializeRow d r0 :: serializeRows d rest := rfl
    unfold readJawCsv
    rw [if_neg (by simp)]
    simp only [Bool.false_eq_true, if_false, hlines, List.headD_cons, hdet]
    congr 1
    unfold readJawRows
    rw [← hlines]
    unfold serializeRows
    rw [List.foldl_map]
    apply foldl_congr_mem
    intro r hr x
    unfold jawRowStep
    rw [csvRow_serializeRow d r (hfr r hr)
      (hnotmem r.1 (hclean r hr).1)
      (hnotmem r.2.1 (hclean r hr).2.1)
      (hnotmem r.2.2 (hclean r hr).2.2)]

/-- C5 counterexample: the claimed identity fails on legal logical rows
when the first row's coordinate fields are both the empty occlusion
sentinel.  Rows `(5, "", ""), (10, "20", "30")` with the default delimiter
configured as `0`: the comma rendering is probed as comma-delimited and
yields `{10 : (20, 30)}`, while the space and tab renderings have a first
data line that strips to bare `5`, so the probe falls back to the
configured `0`, under which `10 20 30` splits into `1, 2, 3` — the
mappings differ. -/
theorem delimiter_robustness_cex :
    readJawCsv false '0' defaultCfg.occlusion_markers
        (serializeRows ',' [("5", "", ""), ("10", "20", "30")]) =
      .ok [(10, some (20, 30))] ∧
    readJawCsv false '0' defaultCfg.occlusion_markers
        (serializeRows ' ' [("5", "", ""), ("10", "20", "30")]) =
      .ok [(1, some (2, 3))] ∧
    readJawCsv false '0' defaultCfg.occlusion_markers
        (serializeRows '\t' [("5", "", ""), ("10", "20", "30")]) =
      .ok [(1, some (2, 3))] := by decide

/-- C5 amended: serializing the same logical `frame, x, y` rows with
comma, space or tab and parsing them back through the Coordinate Table
Reader (delimiter probe included) produces the identical frame to
coordinate-or-occluded mapping, whatever the configured default delimiter
and occlusion-marker set — provided the fields are clean tokens (frame
numbers, numeric literals or occlusion sentinels contain no delimiter,
quote or whitespace characters), the frame field is nonempty, and the
first row has at least one nonempty coordinate field (otherwise its
rendering under a whitespace delimiter strips to nothing and the probe
falls back to the configured default, which can split rows
differently). -/
theorem delimiter_robustness (cd : Char) (markers : List String)
    (rows : List (String × String × String))
    (hclean : ∀ r ∈ rows, cleanFieldB r.1 = true ∧
      cleanFieldB r.2.1 = true ∧ cleanFieldB r.2.2 = true)
    (hfr : ∀ r ∈ rows, r.1 ≠ "")
    (hhead : ∀ r, rows.head? = some r → ¬ (r.2.1 = "" ∧ r.2.2 = "")) :
    readJawCsv false cd markers (serializeRows ',' rows) =
      readJawCsv false cd markers (serializeRows ' ' rows) ∧
    readJawCsv false cd markers (serializeRows ' ' rows) =
      readJawCsv false cd markers (serializeRows '\t' rows) := by
  rw [readJawCsv_serialize ',' (Or.inl rfl) cd markers rows hclean hfr hhead,
    readJawCsv_serialize ' ' (Or.inr (Or.inl rfl)) cd markers rows hclean hfr
      hhead,
    readJawCsv_serialize '\t' (Or.inr (Or.inr rfl)) cd markers rows hclean
      hfr hhead]
  exact ⟨rfl, rfl⟩

/-- C5 witness: a two-row table (one coordinate row, one occluded row)
parses to the same mapping under all three delimiters. -/
theorem delimiter_robustness_witness :
    (∀ r ∈ [("0", "10", "20"), ("1", "nan", "5")],
      cleanFieldB r.1 = true ∧ cleanFieldB r.2.1 = true ∧
      cleanFieldB r.2.2 = true) ∧
    (∀ r ∈ [("0", "10", "20"), ("1", "nan", "5")], r.1 ≠ "") ∧
    (∀ r : String × String × String,
      [("0", "10", "20"), ("1", "nan", "5")].head? = some r →
      ¬ (r.2.1 = "" ∧ r.2.2 = "")) ∧
    readJawCsv false ' ' defaultCfg.occlusion_markers
        (serializeRows ',' [("0", "10", "20"), ("1", "nan", "5")]) =
      readJawCsv false ' ' defaultCfg.occlusion_markers
        (serializeRows ' ' [("0", "10", "20"), ("1", "nan", "5")]) ∧
    readJawCsv false ' ' defaultCfg.occlusion_markers
        (serializeRows ' ' [("0", "10", "20"), ("1", "nan", "5")]) =
      readJawCsv false ' ' defaultCfg.occlusion_markers
        (serializeRows '\t' [("0", "10", "20"), ("1", "nan", "5")]) :=
  ⟨by decide, by decide,
   fun r hr => by
     cases Option.some.inj hr
     decide,
   (delimiter_robustness ' ' defaultCfg.occlusion_markers
     [("0", "10", "20"), ("1", "nan", "5")] (by decide) (by decide)
     (fun r hr => by cases Option.some.inj hr; decide)).1,
   (delimiter_robustness ' ' defaultCfg.occlusion_markers
     [("0", "10", "20"), ("1", "nan", "5")] (by decide) (by decide)
     (fun r hr => by cases Option.some.inj hr; decide)).2⟩

end LickingData
